import Mathlib

set_option autoImplicit false

/-!
Shallow embedding of the token-based authentication and time-gated
authorization core of the FbsHealthcare backend (Express + Prisma).

The JavaScript source is translated function by function:
- `checkLoginTime`, `authenticateToken`, `protect` from the auth middleware;
- `login` from the auth controller;
- `LoginSession.create` / `endSession` / `invalidateAllSessions` from the
  session model;
- the `loginStartTime` / `loginEndTime` format regex from the validators.

External collaborators (the Prisma store, `jsonwebtoken`, `bcryptjs`) are
passed in as explicit function arguments or lists, and the wall clock is an
explicit parameter, so every definition is executable.
-/

/-- JavaScript falsiness of an optional string value: `null`/`undefined`
(`none`) and the empty string are falsy. This is the `!loginStartTime` test
in `checkLoginTime`. -/
def strFalsy : Option String → Bool
  | none => true
  | some s => decide (s = "")

/-- Lexicographic comparison of character lists, as JavaScript's `<` compares
strings by code units (all strings compared here are ASCII, where Lean
characters and UTF-16 code units agree). A strict prefix is smaller. -/
def charListLt : List Char → List Char → Bool
  | [], [] => false
  | [], _ :: _ => true
  | _ :: _, [] => false
  | a :: as, b :: bs =>
    if a < b then true
    else if b < a then false
    else charListLt as bs

/-- JavaScript's `<` on strings. -/
def strLt (a b : String) : Bool := charListLt a.data b.data

/-- JavaScript's `<=` on strings (total order: `a <= b` iff not `b < a`). -/
def strLe (a b : String) : Bool := !(strLt b a)

/-- Result shape of `checkLoginTime`: `{ allowed: true }` on success,
`{ allowed: false, message, currentTime }` on denial. -/
structure TimeCheckResult where
  allowed : Bool
  message : Option String
  currentTime : Option String
  deriving DecidableEq, Repr

/-- `checkLoginTime(loginStartTime, loginEndTime)` from the auth middleware.
The source reads the wall clock internally
(`new Date().toTimeString().slice(0, 8)`, a zero-padded `"HH:MM:SS"`
string); the embedding takes that evaluated clock string as the explicit
`currentTime` argument. Comparisons are JavaScript string comparisons. -/
def checkLoginTime (loginStartTime loginEndTime : Option String)
    (currentTime : String) : TimeCheckResult :=
  if strFalsy loginStartTime || strFalsy loginEndTime then
    { allowed := true, message := none, currentTime := none }
  else
    let start := loginStartTime.getD ""
    let stop := loginEndTime.getD ""
    if strLt stop start then
      -- overnight window: allowed iff currentTime >= start || currentTime <= end
      if strLe start currentTime || strLe currentTime stop then
        { allowed := true, message := none, currentTime := none }
      else
        { allowed := false,
          message := some ("Login allowed only between " ++ start ++ " and " ++ stop),
          currentTime := some currentTime }
    else
      -- same-day window: allowed iff currentTime >= start && currentTime <= end
      if strLe start currentTime && strLe currentTime stop then
        { allowed := true, message := none, currentTime := none }
      else
        { allowed := false,
          message := some ("Login allowed only between " ++ start ++ " and " ++ stop),
          currentTime := some currentTime }

/-- `[0-5][0-9]`: a minutes or seconds group of the validators' time regex. -/
def minSecOk (a b : Char) : Bool :=
  (decide ('0' ≤ a) && decide (a ≤ '5')) && b.isDigit

/-- `[01][0-9]|2[0-3]`: the two-character hour alternatives of the regex. -/
def hourTwoOk (h1 h2 : Char) : Bool :=
  ((decide (h1 = '0') || decide (h1 = '1')) && h2.isDigit)
    || (decide (h1 = '2') && (decide ('0' ≤ h2) && decide (h2 ≤ '3')))

/-- The anchored time-format regex of `registerValidation` and
`updateUserValidation` for `loginStartTime` / `loginEndTime`:
`^([01]?[0-9]|2[0-3]):[0-5][0-9](:[0-5][0-9])?$`. The `[01]?` makes the
leading hour digit optional, so the hour is either one digit `[0-9]` or the
two-character alternatives. -/
def timeFormatMatch : List Char → Bool
  | [h, c1, m1, m2] =>
    decide (c1 = ':') && (h.isDigit && minSecOk m1 m2)
  | [h1, h2, c1, m1, m2] =>
    decide (c1 = ':') && (hourTwoOk h1 h2 && minSecOk m1 m2)
  | [h, c1, m1, m2, c2, s1, s2] =>
    decide (c1 = ':') && decide (c2 = ':')
      && (h.isDigit && minSecOk m1 m2 && minSecOk s1 s2)
  | [h1, h2, c1, m1, m2, c2, s1, s2] =>
    decide (c1 = ':') && decide (c2 = ':')
      && (hourTwoOk h1 h2 && minSecOk m1 m2 && minSecOk s1 s2)
  | _ => false

/-- String form of the validators' time-format test. -/
def timeFormatOk (s : String) : Bool := timeFormatMatch s.data

/-- Written from the spec's words, for comparison with `timeFormatMatch`:
a zero-padded fixed-format time-of-day string, `HH:MM` or `HH:MM:SS` with a
two-digit hour. -/
def zeroPaddedTimeForm : List Char → Bool
  | [h1, h2, c1, m1, m2] =>
    decide (c1 = ':') && (hourTwoOk h1 h2 && minSecOk m1 m2)
  | [h1, h2, c1, m1, m2, c2, s1, s2] =>
    decide (c1 = ':') && decide (c2 = ':')
      && (hourTwoOk h1 h2 && minSecOk m1 m2 && minSecOk s1 s2)
  | _ => false

/-- The single-digit-hour shapes `H:MM` and `H:MM:SS` also admitted by the
source regex through the optional `[01]?`. -/
def singleDigitHourForm : List Char → Bool
  | [h, c1, m1, m2] =>
    decide (c1 = ':') && (h.isDigit && minSecOk m1 m2)
  | [h, c1, m1, m2, c2, s1, s2] =>
    decide (c1 = ':') && decide (c2 = ':')
      && (h.isDigit && minSecOk m1 m2 && minSecOk s1 s2)
  | _ => false

/-- User roles (`role IN ('admin', 'employee')`). -/
inductive Role
  | admin
  | employee
  deriving DecidableEq, Repr

/-- A stored user row as the auth code reads it (the Prisma `user` model). -/
structure UserRec where
  id : Nat
  name : String
  email : String
  phone : String
  password : String
  role : Role
  loginStartTime : Option String
  loginEndTime : Option String
  isActive : Bool
  deriving DecidableEq, Repr

/-- The claims this system signs into a token: `{ userId, email, role }`. -/
structure Claims where
  userId : Nat
  email : String
  role : Role
  deriving DecidableEq, Repr

/-- Outcome of `jwt.verify` as the middleware's catch observes it: decoded
claims, a `TokenExpiredError`, a `JsonWebTokenError` (structurally bad token
or signature mismatch), or any other thrown error. -/
inductive VerifyResult
  | ok (claims : Claims)
  | expired
  | malformed
  | otherError
  deriving DecidableEq, Repr

/-- JavaScript `split(" ")` on a character list. -/
def splitOnSpaceAux : List Char → List (List Char)
  | [] => [[]]
  | c :: cs =>
    match splitOnSpaceAux cs with
    | [] => [[]]
    | acc :: accs => if c = ' ' then [] :: acc :: accs else (c :: acc) :: accs

/-- JavaScript `s.split(" ")`. -/
def jsSplitSpace (s : String) : List String :=
  (splitOnSpaceAux s.data).map String.mk

/-- `authHeader && authHeader.split(" ")[1]` followed by the `!token` test in
`authenticateToken`: `none` when the header is absent, when it has no second
space-separated field, or when that field is empty. -/
def extractBearer (authHeader : Option String) : Option String :=
  match authHeader with
  | none => none
  | some h =>
    match (jsSplitSpace h)[1]? with
    | none => none
    | some t => if t = "" then none else some t

/-- The terminal outcomes of the `authenticateToken` middleware. -/
inductive GuardOutcome
  | missingToken
  | tokenExpired
  | invalidToken
  | unknownSubject
  | deactivated
  | outsideWindow (message : Option String) (currentTime : Option String)
      (startBound endBound : Option String)
  | granted (user : UserRec)
  | serverError
  deriving DecidableEq, Repr

/-- HTTP status of each `authenticateToken` outcome (200 for `next()`). -/
def statusOf : GuardOutcome → Nat
  | .missingToken => 401
  | .tokenExpired => 401
  | .invalidToken => 401
  | .unknownSubject => 401
  | .deactivated => 403
  | .outsideWindow _ _ _ _ => 403
  | .granted _ => 200
  | .serverError => 500

/-- The `message` field of each `authenticateToken` failure response
(`none` on success, where no response body is produced). -/
def messageOf : GuardOutcome → Option String
  | .missingToken => some "Access token required"
  | .tokenExpired => some "Token has expired"
  | .invalidToken => some "Invalid token"
  | .unknownSubject => some "User not found"
  | .deactivated => some "Account has been deactivated"
  | .outsideWindow m _ _ _ => some ("Session expired: " ++ m.getD "")
  | .granted _ => none
  | .serverError => some "Internal server error"

/-- The `authenticateToken` middleware: extract the bearer token, verify it
(`verifyTok` stands for `jwt.verify` with the process secret), reload the
user by the token's `userId` (`findUser` stands for the Prisma lookup),
check `isActive`, and for employees re-run `checkLoginTime` against the
stored bounds. `now` is the evaluator's current wall-clock string. -/
def authenticateToken (verifyTok : String → VerifyResult)
    (findUser : Nat → Option UserRec) (now : String)
    (authHeader : Option String) : GuardOutcome :=
  match extractBearer authHeader with
  | none => .missingToken
  | some tok =>
    match verifyTok tok with
    | .expired => .tokenExpired
    | .malformed => .invalidToken
    | .otherError => .serverError
    | .ok c =>
      match findUser c.userId with
      | none => .unknownSubject
      | some user =>
        if user.isActive = false then .deactivated
        else if user.role = .employee then
          let tc := checkLoginTime user.loginStartTime user.loginEndTime now
          if tc.allowed = false then
            .outsideWindow tc.message tc.currentTime user.loginStartTime user.loginEndTime
          else .granted user
        else .granted user

/-- The outcomes of the `protect` middleware used by the order routes. -/
inductive ProtectOutcome
  | unauthorized
  | invalidToken
  | granted (id : Nat) (role : Role)
  deriving DecidableEq, Repr

/-- JavaScript `s.startsWith(pre)`. -/
def strStartsWith (s pre : String) : Bool := pre.data.isPrefixOf s.data

/-- The `protect` middleware (mounted by `router.use(protect)` on the order
routes): it checks the `Bearer ` prefix and verifies the token, then
attaches `{ id: decoded.userId, role: decoded.role }` straight from the
token's claims — no store lookup, no `isActive` check, no time-window
check. Its catch turns every verification failure into 401 `Invalid
token`. -/
def protect (verifyTok : String → VerifyResult)
    (authHeader : Option String) : ProtectOutcome :=
  match authHeader with
  | none => .unauthorized
  | some h =>
    if strStartsWith h "Bearer " = false then .unauthorized
    else
      match (jsSplitSpace h)[1]? with
      | none => .invalidToken
      | some tok =>
        match verifyTok tok with
        | .ok c => .granted c.userId c.role
        | _ => .invalidToken

/-- Message of each `protect` outcome (`none` on success). -/
def protectMessageOf : ProtectOutcome → Option String
  | .unauthorized => some "Unauthorized"
  | .invalidToken => some "Invalid token"
  | .granted _ _ => none

/-- The payload of an issued token: the signed claims plus the expiry
timestamp added through `expiresIn`. -/
structure TokenPayload where
  userId : Nat
  email : String
  role : Role
  exp : Nat
  deriving DecidableEq, Repr

/-- Modelled from the spec: the HMAC of the `jsonwebtoken` library, which is
third-party code not under src/. Any fixed function of signing key and
payload serves the model; a signature is valid exactly when it agrees with
this function. -/
def macSign (key : Nat) (p : TokenPayload) : Nat :=
  key + 1000003 * (p.userId + 1000 * p.exp)

/-- Modelled from the spec: `jsonwebtoken.verify` (library code, not under
src/). `decode` stands for base64/JSON parsing — `none` is a structurally
bad token, otherwise the payload and its attached signature. The library
classifies structure and signature failures as `JsonWebTokenError` and only
then reports `TokenExpiredError` when the expiry has passed. -/
def jwtVerify (key nowT : Nat) (decode : String → Option (TokenPayload × Nat))
    (s : String) : VerifyResult :=
  match decode s with
  | none => .malformed
  | some (p, sig) =>
    if sig ≠ macSign key p then .malformed
    else if p.exp < nowT then .expired
    else .ok { userId := p.userId, email := p.email, role := p.role }

/-- `jwt.sign({ userId, email, role }, secret, { expiresIn })`, modelled from
the spec: the payload carries expiry `issuedAt + expiresIn` and the
signature over it. -/
def jwtSign (key : Nat) (c : Claims) (issuedAt expiresIn : Nat) :
    TokenPayload × Nat :=
  let p : TokenPayload :=
    { userId := c.userId, email := c.email, role := c.role,
      exp := issuedAt + expiresIn }
  (p, macSign key p)

/-- The user summary a successful login returns (no password hash, no
`isActive` flag). -/
structure UserSummary where
  id : Nat
  name : String
  email : String
  phone : String
  role : Role
  loginStartTime : Option String
  loginEndTime : Option String
  deriving DecidableEq, Repr

/-- Projection of a stored row onto the login response shape. -/
def summaryOf (u : UserRec) : UserSummary :=
  { id := u.id, name := u.name, email := u.email, phone := u.phone,
    role := u.role, loginStartTime := u.loginStartTime,
    loginEndTime := u.loginEndTime }

/-- Outcomes of the `login` controller. -/
inductive LoginResult
  | invalidCredentials
  | accountDeactivated
  | outsideWindow (message : Option String) (currentTime : Option String)
      (startBound endBound : Option String)
  | success (token : TokenPayload × Nat) (user : UserSummary)
  deriving DecidableEq, Repr

/-- HTTP status of each `login` outcome. -/
def loginStatus : LoginResult → Nat
  | .invalidCredentials => 401
  | .accountDeactivated => 403
  | .outsideWindow _ _ _ _ => 403
  | .success _ _ => 200

/-- The `message` field of each `login` response. -/
def loginMessage : LoginResult → Option String
  | .invalidCredentials => some "Invalid email or password"
  | .accountDeactivated => some "Account has been deactivated. Please contact admin."
  | .outsideWindow m _ _ _ => m
  | .success _ _ => some "Login successful"

/-- The `login` controller: find the user by email, check `isActive`, verify
the password (`verifyPassword` stands for `bcrypt.compare`), for employees
check the time window, then issue a token. `key`, `nowT`, `expiresIn`
parameterize issuance; `now` is the evaluator's clock string. The
`LoginSession.create` side effect is modelled separately. -/
def login (verifyPassword : String → String → Bool) (key nowT expiresIn : Nat)
    (now : String) (findByEmail : String → Option UserRec)
    (email password : String) : LoginResult :=
  match findByEmail email with
  | none => .invalidCredentials
  | some user =>
    if user.isActive = false then .accountDeactivated
    else if verifyPassword password user.password = false then .invalidCredentials
    else if user.role = .employee then
      let tc := checkLoginTime user.loginStartTime user.loginEndTime now
      if tc.allowed = false then
        .outsideWindow tc.message tc.currentTime user.loginStartTime user.loginEndTime
      else
        .success
          (jwtSign key { userId := user.id, email := user.email, role := user.role } nowT expiresIn)
          (summaryOf user)
    else
      .success
        (jwtSign key { userId := user.id, email := user.email, role := user.role } nowT expiresIn)
        (summaryOf user)

/-- A `loginSession` row. The Prisma schema file is not under src/, so its
defaults are modelled from the spec: `loginTime` is set at creation,
`logoutTime` starts null, `isValid` starts true. Timestamps are `Nat`. -/
structure SessionRec where
  id : Nat
  userId : Nat
  loginTime : Nat
  logoutTime : Option Nat
  ipAddress : Option String
  userAgent : Option String
  isValid : Bool
  deriving DecidableEq, Repr

namespace LoginSession

/-- `LoginSession.create({ userId, ipAddress, userAgent })`: insert a new row
with the defaults; `newId` is the id the store assigns and `nowT` the
insertion time. -/
def create (userId : Nat) (ipAddress userAgent : Option String)
    (newId nowT : Nat) (db : List SessionRec) : SessionRec × List SessionRec :=
  let s : SessionRec :=
    { id := newId, userId := userId, loginTime := nowT, logoutTime := none,
      ipAddress := ipAddress, userAgent := userAgent, isValid := true }
  (s, db ++ [s])

/-- The rows matched by `endSession`'s `findFirst` filter:
`{ userId, logoutTime: null }`. -/
def openSessions (userId : Nat) (db : List SessionRec) : List SessionRec :=
  db.filter fun s => decide (s.userId = userId) && decide (s.logoutTime = none)

/-- One step of scanning for the latest open session: keep whichever of the
current candidate and the next row has the greater `loginTime` (the earlier
row on ties). -/
def pickLater (best : Option SessionRec) (s : SessionRec) : Option SessionRec :=
  match best with
  | none => some s
  | some b => if b.loginTime < s.loginTime then some s else some b

/-- `findFirst({ where: { userId, logoutTime: null }, orderBy: { loginTime:
"desc" } })`: an open session of maximal `loginTime` (first such row on
ties). -/
def mostRecentOpen (userId : Nat) (db : List SessionRec) : Option SessionRec :=
  (openSessions userId db).foldl pickLater none

/-- `LoginSession.endSession(userId)`: locate the most recent open session;
if none, return null and change nothing; otherwise set its
`logoutTime = now` and `isValid = false` (the row is addressed by id, as in
`update({ where: { id: session.id } })`). Returns the updated row and the
new table. -/
def endSession (userId nowT : Nat) (db : List SessionRec) :
    Option SessionRec × List SessionRec :=
  match mostRecentOpen userId db with
  | none => (none, db)
  | some s =>
    (some { s with logoutTime := some nowT, isValid := false },
      db.map fun t =>
        if t.id = s.id then { t with logoutTime := some nowT, isValid := false }
        else t)

/-- `LoginSession.invalidateAllSessions(userId)`: `updateMany` over the
user's rows with `isValid: true`, setting `isValid = false` and
`logoutTime = now` together; returns the affected count and the new
table. -/
def invalidateAllSessions (userId nowT : Nat) (db : List SessionRec) :
    Nat × List SessionRec :=
  (db.countP fun s => decide (s.userId = userId) && s.isValid,
    db.map fun s =>
      if s.userId = userId ∧ s.isValid = true then
        { s with isValid := false, logoutTime := some nowT }
      else s)

end LoginSession

/-- The session-validity invariant: a row is valid exactly while it has no
logout time. -/
def SessionInv (db : List SessionRec) : Prop :=
  ∀ s ∈ db, s.isValid = true ↔ s.logoutTime = none

/-- The row shape `LoginSession.create` inserts. -/
def freshSession (newId uid now1 : Nat) (ip ua : Option String) : SessionRec :=
  { id := newId, userId := uid, loginTime := now1, logoutTime := none,
    ipAddress := ip, userAgent := ua, isValid := true }

/-- The row shape a created-then-ended session has. -/
def endedSession (newId uid now1 now2 : Nat) (ip ua : Option String) : SessionRec :=
  { id := newId, userId := uid, loginTime := now1, logoutTime := some now2,
    ipAddress := ip, userAgent := ua, isValid := false }

/-! Concrete stores, verifiers and identities used to instantiate the
theorems below on closed inputs. -/

/-- An active employee with a 09:00:00–18:00:00 window. -/
def wUser : UserRec :=
  { id := 7, name := "Dana", email := "dana@fbs.com", phone := "1234567890",
    password := "hash7", role := .employee,
    loginStartTime := some "09:00:00", loginEndTime := some "18:00:00",
    isActive := true }

/-- A verifier accepting exactly the token string `tkn` for user 7. -/
def wVt : String → VerifyResult := fun t =>
  if t = "tkn" then .ok { userId := 7, email := "dana@fbs.com", role := .employee }
  else .malformed

/-- A store holding exactly `wUser`. -/
def wFu : Nat → Option UserRec := fun i => if i = 7 then some wUser else none

/-- A deactivated employee with a 09:00:00–18:00:00 window. -/
def staleUser : UserRec :=
  { id := 3, name := "Riley", email := "riley@fbs.com", phone := "1234567890",
    password := "hash3", role := .employee,
    loginStartTime := some "09:00:00", loginEndTime := some "18:00:00",
    isActive := false }

/-- A verifier accepting exactly the token string `stale` for user 3. -/
def staleVt : String → VerifyResult := fun t =>
  if t = "stale" then .ok { userId := 3, email := "riley@fbs.com", role := .employee }
  else .malformed

/-- A store holding exactly `staleUser`. -/
def staleFu : Nat → Option UserRec := fun i => if i = 3 then some staleUser else none

/-- A token payload for user 3 that expires at time 50. -/
def cPayload : TokenPayload :=
  { userId := 3, email := "riley@fbs.com", role := .employee, exp := 50 }

/-- A decoder under which exactly `sig.ok` parses, carrying `cPayload`
correctly signed with key 9. -/
def cDecode : String → Option (TokenPayload × Nat) :=
  fun s => if s = "sig.ok" then some (cPayload, macSign 9 cPayload) else none

/-- An active admin with (deliberately strange) stored bounds. -/
def adminUser : UserRec :=
  { id := 1, name := "Admin User", email := "admin@fbs.com", phone := "9999999999",
    password := "hashA", role := .admin,
    loginStartTime := some "23:00:00", loginEndTime := some "01:00:00",
    isActive := true }

/-- A verifier accepting exactly the token string `admintkn` for user 1. -/
def adminVt : String → VerifyResult := fun t =>
  if t = "admintkn" then .ok { userId := 1, email := "admin@fbs.com", role := .admin }
  else .malformed

/-- A store holding exactly `adminUser`. -/
def adminFu : Nat → Option UserRec := fun i => if i = 1 then some adminUser else none

/-- The same store with `adminUser`'s bounds replaced. -/
def adminFu2 : Nat → Option UserRec := fun i =>
  if i = 1 then some { adminUser with loginStartTime := none, loginEndTime := some "07:00:00" }
  else none

/-- An email index holding exactly `adminUser`. -/
def adminFe : String → Option UserRec := fun e =>
  if e = "admin@fbs.com" then some adminUser else none

/-- A password checker matching `admin123` against the stored hash `hashA`. -/
def vpW : String → String → Bool := fun p h =>
  decide (p = "admin123") && decide (h = "hashA")

/-- An active employee without time bounds, for the login theorems. -/
def c6User : UserRec :=
  { id := 4, name := "Sam", email := "sam@fbs.com", phone := "1234567890",
    password := "hash4", role := .employee,
    loginStartTime := none, loginEndTime := none, isActive := true }

/-- An email index holding exactly `c6User`. -/
def c6Fe : String → Option UserRec := fun e =>
  if e = "sam@fbs.com" then some c6User else none

/-- A password checker matching `correct` against the stored hash `hash4`. -/
def c6Vp : String → String → Bool := fun p h =>
  decide (p = "correct") && decide (h = "hash4")

/-- `charListLt` agrees with the lexicographic order on `List Char`. -/
theorem charListLt_iff : ∀ xs ys : List Char, charListLt xs ys = true ↔ xs < ys := by
  intro xs
  induction xs with
  | nil =>
    intro ys
    cases ys with
    | nil =>
      refine iff_of_false (by decide) ?_
      intro h; cases h
    | cons b bs =>
      refine iff_of_true rfl ?_
      exact List.Lex.nil
  | cons a as ih =>
    intro ys
    cases ys with
    | nil =>
      refine iff_of_false (by simp [charListLt]) ?_
      intro h; cases h
    | cons b bs =>
      simp only [charListLt]
      by_cases hab : a < b
      · simp only [hab, if_true, true_iff]
        exact List.Lex.rel hab
      · simp only [hab, if_false]
        by_cases hba : b < a
        · simp only [hba, if_true]
          refine iff_of_false (by decide) ?_
          intro h
          cases h with
          | cons h => exact lt_irrefl a hba
          | rel h => exact hab h
        · simp only [hba, if_false]
          have heq : a = b := le_antisymm (not_lt.mp hba) (not_lt.mp hab)
          subst heq
          rw [ih bs]
          constructor
          · intro h; exact List.Lex.cons h
          · intro h
            cases h with
            | cons h => exact h
            | rel h => exact absurd h (lt_irrefl a)

/-- `strLt` agrees with the lexicographic linear order on `String`. -/
theorem strLt_iff (a b : String) : strLt a b = true ↔ a < b := by
  rw [strLt, charListLt_iff, String.lt_iff_toList_lt]
  exact Iff.rfl

/-- `strLe` agrees with the lexicographic linear order on `String`. -/
theorem strLe_iff (a b : String) : strLe a b = true ↔ a ≤ b := by
  rw [strLe, Bool.not_eq_true']
  constructor
  · intro h
    refine not_lt.mp (fun hlt => ?_)
    rw [(strLt_iff b a).mpr hlt] at h
    exact Bool.noConfusion h
  · intro h
    by_contra hne
    have : strLt b a = true := by
      cases hv : strLt b a
      · exact absurd hv hne
      · rfl
    exact absurd ((strLt_iff b a).mp this) (not_lt.mpr h)

/-- On present (nonempty) bounds, the evaluator's verdict is the overnight
disjunction when `end < start` and the same-day conjunction otherwise. -/
theorem checkLoginTime_allowed_eq (s e now : String) (hs : s ≠ "") (he : e ≠ "") :
    (checkLoginTime (some s) (some e) now).allowed =
      (if strLt e s then strLe s now || strLe now e
       else strLe s now && strLe now e) := by
  rw [checkLoginTime]
  simp only [strFalsy, Option.getD_some, decide_eq_false hs, decide_eq_false he,
    Bool.or_self, Bool.false_or, if_false, Bool.false_eq_true]
  cases h1 : strLt e s
  · simp only [Bool.false_eq_true, if_false]
    cases h2 : strLe s now && strLe now e <;> simp
  · simp only [if_true]
    cases h2 : strLe s now || strLe now e <;> simp

/-- C1: for present bounds, a same-day window (`start ≤ end`) allows exactly
`start ≤ now ≤ end`, an overnight window (`start > end`) allows exactly
`now ≥ start ∨ now ≤ end`, and an equal-bounds window allows exactly the
single instant `now = start`; every bound is inclusive. -/
theorem checkLoginTime_window_correct (s e now : String) (hs : s ≠ "") (he : e ≠ "") :
    ((s ≤ e → ((checkLoginTime (some s) (some e) now).allowed = true ↔ s ≤ now ∧ now ≤ e))
      ∧ (e < s → ((checkLoginTime (some s) (some e) now).allowed = true ↔ s ≤ now ∨ now ≤ e))
      ∧ (s = e → ((checkLoginTime (some s) (some e) now).allowed = true ↔ now = s))) := by
  have hE := checkLoginTime_allowed_eq s e now hs he
  refine ⟨?_, ?_, ?_⟩
  · intro hle
    have hlt : strLt e s = false := by
      cases hv : strLt e s
      · rfl
      · exact absurd ((strLt_iff e s).mp hv) (not_lt.mpr hle)
    rw [hE, hlt]
    simp [strLe_iff]
  · intro hlt'
    have hlt : strLt e s = true := (strLt_iff e s).mpr hlt'
    rw [hE, hlt]
    simp [strLe_iff]
  · intro heq
    subst heq
    have hlt : strLt s s = false := by
      cases hv : strLt s s
      · rfl
      · exact absurd ((strLt_iff s s).mp hv) (lt_irrefl s)
    rw [hE, hlt]
    simp only [Bool.false_eq_true, if_false, Bool.and_eq_true, strLe_iff]
    constructor
    · rintro ⟨h1, h2⟩
      exact le_antisymm h2 h1
    · rintro rfl
      exact ⟨le_refl _, le_refl _⟩

/-- C1 witness: the 09:00:00–18:00:00 window admits its own start instant. -/
theorem checkLoginTime_window_correct_witness :
    (checkLoginTime (some "09:00:00") (some "18:00:00") "09:00:00").allowed = true :=
  ((checkLoginTime_window_correct "09:00:00" "18:00:00" "09:00:00" (by decide) (by decide)).1
    ((strLe_iff "09:00:00" "18:00:00").mp (by decide))).mpr
    ⟨le_refl _, (strLe_iff "09:00:00" "18:00:00").mp (by decide)⟩

/-- C9: an absent or empty bound — either one — makes the evaluator return
allowed unconditionally; it is not an error. -/
theorem checkLoginTime_absent_allows (b1 b2 : Option String) (now : String)
    (h : strFalsy b1 = true ∨ strFalsy b2 = true) :
    (checkLoginTime b1 b2 now).allowed = true := by
  rw [checkLoginTime]
  rcases h with h | h <;> simp [h]

/-- C9 witness: an empty start bound with a present end bound allows any
current time. -/
theorem checkLoginTime_absent_allows_witness :
    (checkLoginTime (some "") (some "18:00:00") "03:07:11").allowed = true :=
  checkLoginTime_absent_allows (some "") (some "18:00:00") "03:07:11" (Or.inl (by decide))

/-- C8 counterexample: `"9:30"` is accepted by the validators' regex, is not
a zero-padded two-digit-hour string, and its lexicographic comparison with
the evaluator's zero-padded clock disagrees with chronological order:
`"9:30"` denotes 09:30, which precedes 18:00, yet `"18:00" < "9:30"`
lexicographically — so an employee stored with bounds `9:30`–`18:00` is
evaluated against an inverted (overnight) window, and 08:00:00, which is
chronologically before the start bound, is allowed. -/
theorem timeFormat_accepts_unpadded :
    timeFormatOk "9:30" = true
      ∧ zeroPaddedTimeForm "9:30".data = false
      ∧ strLt "18:00" "9:30" = true
      ∧ (checkLoginTime (some "9:30") (some "18:00") "08:00:00").allowed = true := by
  decide

/-- C8 amended: every string the validators' time regex accepts is either a
zero-padded `HH:MM`/`HH:MM:SS` string (two-digit hour `00`–`23`,
minutes/seconds `00`–`59`) or the corresponding single-digit-hour form
`H:MM`/`H:MM:SS`; the regex does not force zero-padding of the hour. -/
theorem timeFormat_characterization (cs : List Char) :
    timeFormatMatch cs = true ↔
      (zeroPaddedTimeForm cs = true ∨ singleDigitHourForm cs = true) := by
  have hb : timeFormatMatch cs = (zeroPaddedTimeForm cs || singleDigitHourForm cs) := by
    match cs with
    | [] => rfl
    | [a] => rfl
    | [a, b] => rfl
    | [a, b, c] => rfl
    | [a, b, c, d] =>
      simp [timeFormatMatch, zeroPaddedTimeForm, singleDigitHourForm]
    | [a, b, c, d, e] =>
      simp [timeFormatMatch, zeroPaddedTimeForm, singleDigitHourForm]
    | [a, b, c, d, e, f] => rfl
    | [a, b, c, d, e, f, g] =>
      simp [timeFormatMatch, zeroPaddedTimeForm, singleDigitHourForm]
    | [a, b, c, d, e, f, g, h] =>
      simp [timeFormatMatch, zeroPaddedTimeForm, singleDigitHourForm]
    | a :: b :: c :: d :: e :: f :: g :: h :: i :: rest => rfl
  rw [hb, Bool.or_eq_true]

example : charListLt "09:00".data "18:30".data = true := by decide
example : strLt "18:00" "9:30" = true := by decide
example : (checkLoginTime (some "09:00:00") (some "18:00:00") "12:00:00").allowed = true := by decide
example : (checkLoginTime (some "09:00:00") (some "18:00:00") "18:00:01").allowed = false := by decide
example : (checkLoginTime (some "20:00:00") (some "06:00:00") "23:30:00").allowed = true := by decide
example : (checkLoginTime none (some "06:00:00") "23:30:00").allowed = true := by decide

/-- C3: the Access Guard applies token-presence, token-validity,
identity-load, isActive and time-window checks in this fixed order and
terminates at the first failure — each early outcome holds for all values
of the data only later checks consult — and the first three steps' failures
are 401 responses (missing token, expired token, invalid token, unknown
subject) while the last two are 403 responses (account deactivated, outside
allowed window), each branch with its own message. -/
theorem guard_pipeline_order (vt : String → VerifyResult)
    (fu : Nat → Option UserRec) (now : String) (hdr : Option String)
    (tok : String) (c : Claims) (u : UserRec) :
    ((extractBearer hdr = none →
        ∀ vt2 fu2 now2, authenticateToken vt2 fu2 now2 hdr = .missingToken)
      ∧ (extractBearer hdr = some tok → vt tok = .expired →
          ∀ fu2 now2, authenticateToken vt fu2 now2 hdr = .tokenExpired)
      ∧ (extractBearer hdr = some tok → vt tok = .malformed →
          ∀ fu2 now2, authenticateToken vt fu2 now2 hdr = .invalidToken)
      ∧ (extractBearer hdr = some tok → vt tok = .ok c → fu c.userId = none →
          ∀ now2, authenticateToken vt fu now2 hdr = .unknownSubject)
      ∧ (extractBearer hdr = some tok → vt tok = .ok c → fu c.userId = some u →
          u.isActive = false →
          ∀ now2, authenticateToken vt fu now2 hdr = .deactivated)
      ∧ (extractBearer hdr = some tok → vt tok = .ok c → fu c.userId = some u →
          u.isActive = true → u.role = .employee →
          (checkLoginTime u.loginStartTime u.loginEndTime now).allowed = false →
          authenticateToken vt fu now hdr =
            .outsideWindow (checkLoginTime u.loginStartTime u.loginEndTime now).message
              (checkLoginTime u.loginStartTime u.loginEndTime now).currentTime
              u.loginStartTime u.loginEndTime)
      ∧ statusOf .missingToken = 401
      ∧ messageOf .missingToken = some "Access token required"
      ∧ statusOf .tokenExpired = 401
      ∧ messageOf .tokenExpired = some "Token has expired"
      ∧ statusOf .invalidToken = 401
      ∧ messageOf .invalidToken = some "Invalid token"
      ∧ statusOf .unknownSubject = 401
      ∧ messageOf .unknownSubject = some "User not found"
      ∧ statusOf .deactivated = 403
      ∧ messageOf .deactivated = some "Account has been deactivated"
      ∧ (∀ m ct b1 b2, statusOf (.outsideWindow m ct b1 b2) = 403)) := by
  refine ⟨?_, ?_, ?_, ?_, ?_, ?_, rfl, rfl, rfl, rfl, rfl, rfl, rfl, rfl, rfl, rfl,
    fun m ct b1 b2 => rfl⟩
  · intro h vt2 fu2 now2
    simp [authenticateToken, h]
  · intro h hv fu2 now2
    simp [authenticateToken, h, hv]
  · intro h hv fu2 now2
    simp [authenticateToken, h, hv]
  · intro h hv hu now2
    simp [authenticateToken, h, hv, hu]
  · intro h hv hu hact now2
    simp [authenticateToken, h, hv, hu, hact]
  · intro h hv hu hact hrole htime
    simp [authenticateToken, h, hv, hu, hact, hrole, htime]

/-- C3 witness: with the concrete store, a missing header stops at the first
check, and the deactivated user and out-of-window employee are refused with
the corresponding later outcomes. -/
theorem guard_pipeline_order_witness :
    authenticateToken wVt wFu "20:00:00" none = .missingToken
      ∧ authenticateToken wVt wFu "20:00:00" (some "Bearer tkn") =
          .outsideWindow (some "Login allowed only between 09:00:00 and 18:00:00")
            (some "20:00:00") (some "09:00:00") (some "18:00:00") := by
  have h1 := (guard_pipeline_order wVt wFu "20:00:00" none "tkn"
    ⟨7, "dana@fbs.com", .employee⟩ wUser).1 rfl wVt wFu "20:00:00"
  have h6 := (guard_pipeline_order wVt wFu "20:00:00" (some "Bearer tkn") "tkn"
    ⟨7, "dana@fbs.com", .employee⟩ wUser).2.2.2.2.2.1
    (by decide) (by decide) (by decide) (by decide) (by decide) (by decide)
  exact ⟨h1, h6.trans (by decide)⟩

/-- C2 amended: on routes guarded by `authenticateToken` the guard
re-validates the token, reloads the identity's stored state, and for
employees re-evaluates the time window, so a request is granted only when
the reloaded identity is active and (for employees) the current time lies
in the stored window; the order routes, however, are guarded by `protect`,
which trusts the token's embedded claims and performs none of these
re-checks (see the counterexample). -/
theorem authenticateToken_rechecks_state (vt : String → VerifyResult)
    (fu : Nat → Option UserRec) (now : String) (hdr : Option String)
    (u : UserRec)
    (h : authenticateToken vt fu now hdr = .granted u) :
    u.isActive = true
      ∧ (u.role = .employee →
          (checkLoginTime u.loginStartTime u.loginEndTime now).allowed = true)
      ∧ ∃ tok c, extractBearer hdr = some tok ∧ vt tok = .ok c
          ∧ fu c.userId = some u := by
  cases hx : extractBearer hdr with
  | none => simp [authenticateToken, hx] at h
  | some tok =>
    cases hv : vt tok with
    | expired => simp [authenticateToken, hx, hv] at h
    | malformed => simp [authenticateToken, hx, hv] at h
    | otherError => simp [authenticateToken, hx, hv] at h
    | ok c =>
      cases hu : fu c.userId with
      | none => simp [authenticateToken, hx, hv, hu] at h
      | some w =>
        cases hact : w.isActive with
        | false => simp [authenticateToken, hx, hv, hu, hact] at h
        | true =>
          by_cases hrole : w.role = .employee
          · cases htc : (checkLoginTime w.loginStartTime w.loginEndTime now).allowed with
            | false => simp [authenticateToken, hx, hv, hu, hact, hrole, htc] at h
            | true =>
              simp [authenticateToken, hx, hv, hu, hact, hrole, htc] at h
              subst h
              exact ⟨hact, fun _ => htc, tok, c, rfl, hv, hu⟩
          · simp [authenticateToken, hx, hv, hu, hact, hrole] at h
            subst h
            exact ⟨hact, fun hr => absurd hr hrole, tok, c, rfl, hv, hu⟩

/-- C2 witness: a granted request of the concrete in-window employee indeed
has an active reloaded identity and a passing window evaluation. -/
theorem authenticateToken_rechecks_state_witness :
    wUser.isActive = true
      ∧ (wUser.role = .employee →
          (checkLoginTime wUser.loginStartTime wUser.loginEndTime "12:00:00").allowed = true)
      ∧ ∃ tok c, extractBearer (some "Bearer tkn") = some tok ∧ wVt tok = .ok c
          ∧ wFu c.userId = some wUser :=
  authenticateToken_rechecks_state wVt wFu "12:00:00" (some "Bearer tkn") wUser (by decide)

/-- C2 counterexample: a valid, unexpired token for identity 3 is granted by
the `protect` guard of the order routes even though the stored identity is
deactivated and the wall clock (20:00:00) is outside its stored
09:00:00–18:00:00 window; `authenticateToken` on the same request would
refuse with the deactivation outcome. -/
theorem protect_grants_stale_identity :
    protect staleVt (some "Bearer stale") = .granted 3 .employee
      ∧ (staleFu 3).map UserRec.isActive = some false
      ∧ (checkLoginTime staleUser.loginStartTime staleUser.loginEndTime "20:00:00").allowed = false
      ∧ authenticateToken staleVt staleFu "20:00:00" (some "Bearer stale") = .deactivated := by
  decide

/-- C4 counterexample: under the order routes' `protect` guard, the
correctly signed token `sig.ok`, validated at time 100 after its expiry 50,
is reported with the invalid-token outcome and the very same
`Invalid token` message that a structurally bad token gets — the two failure
kinds do not produce different caller-visible messages there. -/
theorem protect_collapses_expired :
    jwtVerify 9 100 cDecode "sig.ok" = .expired
      ∧ protect (jwtVerify 9 100 cDecode) (some "Bearer sig.ok") = .invalidToken
      ∧ protect (jwtVerify 9 100 cDecode) (some "Bearer garbage") = .invalidToken
      ∧ protectMessageOf .invalidToken = some "Invalid token" := by
  decide

/-- C4 amended: the validator classifies a failing token into exactly one of
two kinds and correctly — a structurally valid, correctly signed token past
its expiry is `Expired`, never `Malformed`, and a bad or wrongly signed
token is `Malformed` — and the `authenticateToken` catch maps the two kinds
to the distinct messages `Token has expired` and `Invalid token`; the
`protect` catch, however, collapses every failure, expiry included, to
`Invalid token`. -/
theorem token_failure_taxonomy (key nowT : Nat)
    (decode : String → Option (TokenPayload × Nat)) (s tok : String)
    (p : TokenPayload) (sig : Nat) (vt : String → VerifyResult)
    (fu : Nat → Option UserRec) (now : String) (hdr : Option String) :
    ((decode s = some (p, sig) → sig = macSign key p → p.exp < nowT →
        jwtVerify key nowT decode s = .expired)
      ∧ (decode s = some (p, sig) → sig ≠ macSign key p →
          jwtVerify key nowT decode s = .malformed)
      ∧ (decode s = none → jwtVerify key nowT decode s = .malformed)
      ∧ (extractBearer hdr = some tok → vt tok = .expired →
          messageOf (authenticateToken vt fu now hdr) = some "Token has expired")
      ∧ (extractBearer hdr = some tok → vt tok = .malformed →
          messageOf (authenticateToken vt fu now hdr) = some "Invalid token")
      ∧ (some "Token has expired" : Option String) ≠ some "Invalid token"
      ∧ (∀ h2 t2, strStartsWith h2 "Bearer " = true → (jsSplitSpace h2)[1]? = some t2 →
          vt t2 = .expired → protect vt (some h2) = .invalidToken)) := by
  refine ⟨?_, ?_, ?_, ?_, ?_, by decide, ?_⟩
  · intro hd hsig hexp
    simp [jwtVerify, hd, hsig, hexp]
  · intro hd hsig
    simp [jwtVerify, hd, hsig]
  · intro hd
    simp [jwtVerify, hd]
  · intro hx hv
    simp [authenticateToken, hx, hv, messageOf]
  · intro hx hv
    simp [authenticateToken, hx, hv, messageOf]
  · intro h2 t2 hpre hget hv
    simp [protect, hpre, hget, hv]

/-- C4 witness: with the concrete key-9 decoder, the expired token is
classified `Expired` and `authenticateToken` reports the dedicated expiry
message. -/
theorem token_failure_taxonomy_witness :
    jwtVerify 9 100 cDecode "sig.ok" = .expired
      ∧ messageOf (authenticateToken (jwtVerify 9 100 cDecode) staleFu "12:00:00"
          (some "Bearer sig.ok")) = some "Token has expired" := by
  have h := token_failure_taxonomy 9 100 cDecode "sig.ok" "sig.ok" cPayload
    (macSign 9 cPayload) (jwtVerify 9 100 cDecode) staleFu "12:00:00"
    (some "Bearer sig.ok")
  exact ⟨h.1 (by decide) rfl (by decide), h.2.2.2.1 (by decide) (by decide)⟩

/-- C5: an admin identity is never subject to the time-window evaluation,
at the guard or at login: the guard's outcome is the same at every wall
clock and is never the outside-window failure, its status is unchanged when
the stored bounds are replaced by arbitrary other values, and the login
controller likewise ignores the clock and never reports the window failure
for an admin. -/
theorem admin_never_time_checked (vt : String → VerifyResult)
    (fu fu' : Nat → Option UserRec) (now now' : String) (hdr : Option String)
    (tok : String) (c : Claims) (u : UserRec) (b1 b2 : Option String)
    (vp : String → String → Bool) (key nowT expiresIn : Nat)
    (fe : String → Option UserRec) (email pw : String) (w : UserRec)
    (hx : extractBearer hdr = some tok) (hv : vt tok = .ok c)
    (hu : fu c.userId = some u) (hrole : u.role = .admin)
    (hu' : fu' c.userId = some { u with loginStartTime := b1, loginEndTime := b2 })
    (hw : fe email = some w) (hwrole : w.role = .admin) :
    (authenticateToken vt fu now hdr = authenticateToken vt fu now' hdr)
      ∧ (∀ m ct s1 s2, authenticateToken vt fu now hdr ≠ .outsideWindow m ct s1 s2)
      ∧ statusOf (authenticateToken vt fu now hdr)
          = statusOf (authenticateToken vt fu' now' hdr)
      ∧ (login vp key nowT expiresIn now fe email pw
          = login vp key nowT expiresIn now' fe email pw)
      ∧ (∀ m ct s1 s2,
          login vp key nowT expiresIn now fe email pw ≠ .outsideWindow m ct s1 s2) := by
  have hne : u.role = Role.employee ↔ False := by
    rw [hrole]; simp
  have hA : ∀ n, authenticateToken vt fu n hdr
      = if u.isActive = false then .deactivated else .granted u := by
    intro n
    simp [authenticateToken, hx, hv, hu, hne]
  have hA' : ∀ n, authenticateToken vt fu' n hdr
      = if u.isActive = false then .deactivated
        else .granted { u with loginStartTime := b1, loginEndTime := b2 } := by
    intro n
    simp [authenticateToken, hx, hv, hu', hne]
  have hwne : w.role = Role.employee ↔ False := by
    rw [hwrole]; simp
  have hL : ∀ n, login vp key nowT expiresIn n fe email pw
      = if w.isActive = false then .accountDeactivated
        else if vp pw w.password = false then .invalidCredentials
        else .success
          (jwtSign key { userId := w.id, email := w.email, role := w.role } nowT expiresIn)
          (summaryOf w) := by
    intro n
    simp [login, hw, hwne]
  refine ⟨?_, ?_, ?_, ?_, ?_⟩
  · rw [hA now, hA now']
  · intro m ct s1 s2
    rw [hA now]
    by_cases hact : u.isActive = false
    · simp [hact]
    · simp [hact]
  · rw [hA now, hA' now']
    by_cases hact : u.isActive = false
    · simp [hact]
    · simp [hact, statusOf]
  · rw [hL now, hL now']
  · intro m ct s1 s2
    rw [hL now]
    by_cases hact : w.isActive = false
    · simp [hact]
    · by_cases hpw : vp pw w.password = false
      · simp [hact, hpw]
      · simp [hact, hpw]

/-- C5 witness: the concrete admin with nonsense bounds is granted at 03:00
and at 12:00 alike, its status is unchanged when the stored bounds change,
and its login result is clock-independent. -/
theorem admin_never_time_checked_witness :
    (authenticateToken adminVt adminFu "03:00:00" (some "Bearer admintkn")
        = authenticateToken adminVt adminFu "12:00:00" (some "Bearer admintkn"))
      ∧ statusOf (authenticateToken adminVt adminFu "03:00:00" (some "Bearer admintkn"))
          = statusOf (authenticateToken adminVt adminFu2 "12:00:00" (some "Bearer admintkn"))
      ∧ (login vpW 9 0 86400 "03:00:00" adminFe "admin@fbs.com" "admin123"
          = login vpW 9 0 86400 "12:00:00" adminFe "admin@fbs.com" "admin123") := by
  have h := admin_never_time_checked adminVt adminFu adminFu2 "03:00:00" "12:00:00"
    (some "Bearer admintkn") "admintkn" ⟨1, "admin@fbs.com", .admin⟩ adminUser
    none (some "07:00:00") vpW 9 0 86400 adminFe "admin@fbs.com" "admin123" adminUser
    (by decide) (by decide) (by decide) rfl (by decide) (by decide) rfl
  exact ⟨h.1, h.2.2.1, h.2.2.2.1⟩

/-- C6: account-enumeration resistance at login — an unknown email and the
email of a stored active identity with a non-matching password produce the
identical outward result: one 401 response carrying the generic
`Invalid email or password` message. -/
theorem login_enumeration_resistant (vp : String → String → Bool)
    (key nowT expiresIn : Nat) (now : String)
    (findByEmail : String → Option UserRec) (e1 e2 pw : String) (u : UserRec)
    (h1 : findByEmail e1 = none) (h2 : findByEmail e2 = some u)
    (hact : u.isActive = true) (hpw : vp pw u.password = false) :
    login vp key nowT expiresIn now findByEmail e1 pw
        = login vp key nowT expiresIn now findByEmail e2 pw
      ∧ login vp key nowT expiresIn now findByEmail e1 pw = .invalidCredentials
      ∧ loginStatus .invalidCredentials = 401
      ∧ loginMessage .invalidCredentials = some "Invalid email or password" := by
  have hA : login vp key nowT expiresIn now findByEmail e1 pw = .invalidCredentials := by
    simp [login, h1]
  have hB : login vp key nowT expiresIn now findByEmail e2 pw = .invalidCredentials := by
    simp [login, h2, hact, hpw]
  exact ⟨hA.trans hB.symm, hA, rfl, rfl⟩

/-- C6 witness: with the concrete store, a ghost email and Sam's email with
a wrong password yield the identical result. -/
theorem login_enumeration_resistant_witness :
    login c6Vp 9 0 86400 "12:00:00" c6Fe "ghost@fbs.com" "wrongpw"
      = login c6Vp 9 0 86400 "12:00:00" c6Fe "sam@fbs.com" "wrongpw" :=
  (login_enumeration_resistant c6Vp 9 0 86400 "12:00:00" c6Fe "ghost@fbs.com"
    "sam@fbs.com" "wrongpw" c6User (by decide) (by decide) rfl (by decide)).1

/-- Scanning from no candidate adopts the next row. -/
theorem pickLater_none (a : SessionRec) : LoginSession.pickLater none a = some a := rfl

/-- A strictly later row replaces the candidate. -/
theorem pickLater_lt {b a : SessionRec} (h : b.loginTime < a.loginTime) :
    LoginSession.pickLater (some b) a = some a := by
  simp [LoginSession.pickLater, h]

/-- A row that is not strictly later leaves the candidate in place. -/
theorem pickLater_ge {b a : SessionRec} (h : ¬ b.loginTime < a.loginTime) :
    LoginSession.pickLater (some b) a = some b := by
  simp [LoginSession.pickLater, h]

/-- Folding `pickLater` from a present seed never yields `none`. -/
theorem foldl_pickLater_ne_none :
    ∀ (l : List SessionRec) (b : SessionRec),
      l.foldl LoginSession.pickLater (some b) ≠ none := by
  intro l
  induction l with
  | nil => intro b h; cases h
  | cons a l ih =>
    intro b h
    rw [List.foldl_cons] at h
    by_cases hlt : b.loginTime < a.loginTime
    · rw [pickLater_lt hlt] at h
      exact ih a h
    · rw [pickLater_ge hlt] at h
      exact ih b h

/-- The fold of `pickLater` returns its seed or a list element, and the
returned row's `loginTime` dominates the seed and every list element. -/
theorem foldl_pickLater_spec :
    ∀ (l : List SessionRec) (acc : Option SessionRec) (s : SessionRec),
      l.foldl LoginSession.pickLater acc = some s →
      (acc = some s ∨ s ∈ l)
        ∧ (∀ b, acc = some b → b.loginTime ≤ s.loginTime)
        ∧ (∀ t ∈ l, t.loginTime ≤ s.loginTime) := by
  intro l
  induction l with
  | nil =>
    intro acc s h
    rw [List.foldl_nil] at h
    refine ⟨Or.inl h, ?_, ?_⟩
    · intro b hb
      rw [h] at hb
      injection hb with hb
      rw [hb]
    · intro t ht
      exact absurd ht (List.not_mem_nil t)
  | cons a l ih =>
    intro acc s h
    rw [List.foldl_cons] at h
    obtain ⟨hmem, hdomacc, hdoml⟩ := ih (LoginSession.pickLater acc a) s h
    have hstep : LoginSession.pickLater acc a = some s → (acc = some s ∨ s = a) := by
      intro hpa
      cases acc with
      | none =>
        rw [pickLater_none] at hpa
        injection hpa with hpa
        exact Or.inr hpa.symm
      | some b =>
        by_cases hlt : b.loginTime < a.loginTime
        · rw [pickLater_lt hlt] at hpa
          injection hpa with hpa
          exact Or.inr hpa.symm
        · rw [pickLater_ge hlt] at hpa
          injection hpa with hpa
          exact Or.inl (by rw [hpa])
    have hup : ∀ b, acc = some b → b.loginTime ≤ s.loginTime := by
      intro b hb
      subst hb
      by_cases hlt : b.loginTime < a.loginTime
      · have ha : a.loginTime ≤ s.loginTime := hdomacc a (pickLater_lt hlt)
        exact le_trans (le_of_lt hlt) ha
      · exact hdomacc b (pickLater_ge hlt)
    have hahead : a.loginTime ≤ s.loginTime := by
      cases acc with
      | none => exact hdomacc a (pickLater_none a)
      | some b =>
        by_cases hlt : b.loginTime < a.loginTime
        · exact hdomacc a (pickLater_lt hlt)
        · have hb : b.loginTime ≤ s.loginTime := hdomacc b (pickLater_ge hlt)
          exact le_trans (not_lt.mp hlt) hb
    refine ⟨?_, hup, ?_⟩
    · cases hmem with
      | inl hpa =>
        cases hstep hpa with
        | inl hA => exact Or.inl hA
        | inr hA => exact Or.inr (hA ▸ List.mem_cons_self a l)
      | inr hA => exact Or.inr (List.mem_cons_of_mem a hA)
    · intro t ht
      cases List.mem_cons.mp ht with
      | inl hA => rw [hA]; exact hahead
      | inr hA => exact hdoml t hA

/-- Membership in `openSessions`: the user's rows with null `logoutTime`. -/
theorem mem_openSessions (uid : Nat) (db : List SessionRec) (t : SessionRec) :
    t ∈ LoginSession.openSessions uid db ↔
      t ∈ db ∧ t.userId = uid ∧ t.logoutTime = none := by
  simp [LoginSession.openSessions, List.mem_filter, and_assoc]

/-- `mostRecentOpen` is empty exactly when no open session exists. -/
theorem mostRecentOpen_none_iff (uid : Nat) (db : List SessionRec) :
    LoginSession.mostRecentOpen uid db = none ↔
      LoginSession.openSessions uid db = [] := by
  unfold LoginSession.mostRecentOpen
  cases hl : LoginSession.openSessions uid db with
  | nil => simp
  | cons a l =>
    constructor
    · intro h
      rw [List.foldl_cons, pickLater_none] at h
      exact absurd h (foldl_pickLater_ne_none l a)
    · intro h
      exact absurd h (List.cons_ne_nil a l)

/-- A row returned by `mostRecentOpen` is an open session of the user whose
`loginTime` dominates all of the user's open sessions. -/
theorem mostRecentOpen_spec (uid : Nat) (db : List SessionRec) (s : SessionRec)
    (h : LoginSession.mostRecentOpen uid db = some s) :
    s ∈ db ∧ s.userId = uid ∧ s.logoutTime = none
      ∧ ∀ t ∈ db, t.userId = uid → t.logoutTime = none →
          t.loginTime ≤ s.loginTime := by
  obtain ⟨hmem, _, hdom⟩ :=
    foldl_pickLater_spec (LoginSession.openSessions uid db) none s h
  have hmem' : s ∈ LoginSession.openSessions uid db := by
    cases hmem with
    | inl hA => cases hA
    | inr hA => exact hA
  obtain ⟨hdb, huid, hlog⟩ := (mem_openSessions uid db s).mp hmem'
  refine ⟨hdb, huid, hlog, ?_⟩
  intro t ht htu htl
  exact hdom t ((mem_openSessions uid db t).mpr ⟨ht, htu, htl⟩)

/-- Filtering by user over a map that preserves `userId` commutes. -/
theorem filter_userId_map_update (l : List SessionRec)
    (f : SessionRec → SessionRec) (hf : ∀ t, (f t).userId = t.userId) (uid : Nat) :
    ((l.map f).filter fun t => decide (t.userId = uid))
      = (l.filter fun t => decide (t.userId = uid)).map f := by
  induction l with
  | nil => rfl
  | cons a l ih =>
    rw [List.map_cons, List.filter_cons, List.filter_cons]
    by_cases ha : a.userId = uid
    · simp only [hf a, ha, decide_True, if_pos, List.map_cons, ih]
    · simp only [hf a, ha, decide_False, if_neg, Bool.false_eq_true,
        not_false_iff, ih]

/-- `endSession` with no open session is the identity, returning none. -/
theorem endSession_no_open (uid nowT : Nat) (db : List SessionRec)
    (h : LoginSession.mostRecentOpen uid db = none) :
    LoginSession.endSession uid nowT db = (none, db) := by
  unfold LoginSession.endSession
  rw [h]

/-- `startSession` immediately followed by `endSession`, for an identity
with no previous sessions: the identity ends up with exactly one session,
ended at the logout time and invalid, and a further `endSession` is a no-op
returning none. -/
theorem endSession_after_create (uid now1 now2 newId : Nat) (ip ua : Option String)
    (db : List SessionRec) (hfresh : ∀ t ∈ db, t.userId ≠ uid) :
    (((LoginSession.endSession uid now2
          (LoginSession.create uid ip ua newId now1 db).2).2.filter
        fun t => decide (t.userId = uid))
        = [endedSession newId uid now1 now2 ip ua])
      ∧ ∀ now3, LoginSession.endSession uid now3
            (LoginSession.endSession uid now2
              (LoginSession.create uid ip ua newId now1 db).2).2
          = (none, (LoginSession.endSession uid now2
              (LoginSession.create uid ip ua newId now1 db).2).2) := by
  have hnew : (LoginSession.create uid ip ua newId now1 db).2
      = db ++ [freshSession newId uid now1 ip ua] := rfl
  have hopen1 : LoginSession.openSessions uid (db ++ [freshSession newId uid now1 ip ua])
      = [freshSession newId uid now1 ip ua] := by
    simp only [LoginSession.openSessions, List.filter_append]
    rw [List.filter_eq_nil_iff.mpr (fun t ht => by simp [hfresh t ht])]
    simp [freshSession]
  have hmro : LoginSession.mostRecentOpen uid (db ++ [freshSession newId uid now1 ip ua])
      = some (freshSession newId uid now1 ip ua) := by
    simp only [LoginSession.mostRecentOpen, hopen1, List.foldl_cons, List.foldl_nil,
      pickLater_none]
  have hsnd : (LoginSession.endSession uid now2
      (LoginSession.create uid ip ua newId now1 db).2).2
      = (db ++ [freshSession newId uid now1 ip ua]).map
          (fun t : SessionRec =>
            if t.id = (freshSession newId uid now1 ip ua).id then
              { t with logoutTime := some now2, isValid := false }
            else t) := by
    rw [hnew]
    simp [LoginSession.endSession, hmro]
  constructor
  · rw [hsnd,
      filter_userId_map_update _ _
        (fun t => by
          by_cases hid : t.id = (freshSession newId uid now1 ip ua).id <;> simp [hid]) uid,
      List.filter_append,
      List.filter_eq_nil_iff.mpr (fun t ht => by simp [hfresh t ht])]
    simp [freshSession, endedSession]
  · intro now3
    have hopen2 : LoginSession.openSessions uid
        (LoginSession.endSession uid now2
          (LoginSession.create uid ip ua newId now1 db).2).2 = [] := by
      rw [hsnd]
      apply List.filter_eq_nil_iff.mpr
      intro t ht
      obtain ⟨t0, ht0, rfl⟩ := List.mem_map.mp ht
      rcases List.mem_append.mp ht0 with h0 | h0
      · have hne := hfresh t0 h0
        by_cases hid : t0.id = (freshSession newId uid now1 ip ua).id <;>
          simp [hid, hne]
      · have ht0e : t0 = freshSession newId uid now1 ip ua := by simpa using h0
        subst ht0e
        simp [freshSession]
    have hmro2 := (mostRecentOpen_none_iff uid _).mpr hopen2
    exact endSession_no_open uid now3 _ hmro2

/-- C7: `endSession` selects the most recent open session of the identity,
sets its `logoutTime` to now and `isValid` to false, and leaves every other
row unchanged; with no open session it returns none and modifies nothing,
raising no error; `startSession` immediately followed by `endSession`
yields exactly one ended session, and a second `endSession` with no other
open session is a no-op returning none. -/
theorem endSession_correct (uid nowT : Nat) (db : List SessionRec) :
    ((LoginSession.openSessions uid db = [] →
        LoginSession.endSession uid nowT db = (none, db))
      ∧ (∀ s, LoginSession.mostRecentOpen uid db = some s →
          s ∈ db ∧ s.userId = uid ∧ s.logoutTime = none
            ∧ (∀ t ∈ db, t.userId = uid → t.logoutTime = none →
                t.loginTime ≤ s.loginTime)
            ∧ (LoginSession.endSession uid nowT db).1
                = some { s with logoutTime := some nowT, isValid := false }
            ∧ (∀ t ∈ db, t.id ≠ s.id →
                t ∈ (LoginSession.endSession uid nowT db).2))
      ∧ (∀ ip ua newId now1 now2, (∀ t ∈ db, t.userId ≠ uid) →
          (((LoginSession.endSession uid now2
                (LoginSession.create uid ip ua newId now1 db).2).2.filter
              fun t => decide (t.userId = uid))
            = [endedSession newId uid now1 now2 ip ua])
          ∧ ∀ now3, LoginSession.endSession uid now3
                (LoginSession.endSession uid now2
                  (LoginSession.create uid ip ua newId now1 db).2).2
              = (none, (LoginSession.endSession uid now2
                  (LoginSession.create uid ip ua newId now1 db).2).2))) := by
  refine ⟨?_, ?_, ?_⟩
  · intro h
    exact endSession_no_open uid nowT db ((mostRecentOpen_none_iff uid db).mpr h)
  · intro s hs
    obtain ⟨hdb, huid, hlog, hdom⟩ := mostRecentOpen_spec uid db s hs
    have hend : LoginSession.endSession uid nowT db
        = (some { s with logoutTime := some nowT, isValid := false },
            db.map fun t : SessionRec =>
              if t.id = s.id then { t with logoutTime := some nowT, isValid := false }
              else t) := by
      unfold LoginSession.endSession
      rw [hs]
    refine ⟨hdb, huid, hlog, hdom, ?_, ?_⟩
    · rw [hend]
    · intro t ht hne
      rw [hend]
      exact List.mem_map.mpr ⟨t, ht, by simp [hne]⟩
  · intro ip ua newId now1 now2 hf
    exact endSession_after_create uid now1 now2 newId ip ua db hf

/-- C7 witness: from an empty table, `create` then `endSession` for user 2
leaves exactly one ended session, and a second `endSession` is a no-op. -/
theorem endSession_correct_witness :
    (((LoginSession.endSession 2 20
          (LoginSession.create 2 (some "10.0.0.1") (some "curl") 11 10 []).2).2.filter
        fun t => decide (t.userId = 2))
        = [endedSession 11 2 10 20 (some "10.0.0.1") (some "curl")])
      ∧ LoginSession.endSession 2 30
          (LoginSession.endSession 2 20
            (LoginSession.create 2 (some "10.0.0.1") (some "curl") 11 10 []).2).2
        = (none, (LoginSession.endSession 2 20
            (LoginSession.create 2 (some "10.0.0.1") (some "curl") 11 10 []).2).2) := by
  have h := (endSession_correct 2 20 []).2.2 (some "10.0.0.1") (some "curl") 11 10 20
    (fun t ht => absurd ht (List.not_mem_nil t))
  exact ⟨h.1, h.2 30⟩

/-- C10: a session row is valid exactly while its `logoutTime` is null:
`create` establishes the invariant, `endSession` and
`invalidateAllSessions` preserve it, and the two mutators only ever set
`isValid = false` together with a non-null `logoutTime`, never one without
the other. -/
theorem session_validity_invariant (uid nowT newId : Nat) (ip ua : Option String)
    (db : List SessionRec) (hinv : SessionInv db) :
    SessionInv (LoginSession.create uid ip ua newId nowT db).2
      ∧ SessionInv (LoginSession.endSession uid nowT db).2
      ∧ SessionInv (LoginSession.invalidateAllSessions uid nowT db).2
      ∧ (∀ t ∈ (LoginSession.endSession uid nowT db).2,
          t ∈ db ∨ (t.isValid = false ∧ t.logoutTime = some nowT))
      ∧ (∀ t ∈ (LoginSession.invalidateAllSessions uid nowT db).2,
          t ∈ db ∨ (t.isValid = false ∧ t.logoutTime = some nowT)) := by
  have hendsnd : ∀ t ∈ (LoginSession.endSession uid nowT db).2,
      t ∈ db ∨ (t.isValid = false ∧ t.logoutTime = some nowT) := by
    intro t ht
    cases hm : LoginSession.mostRecentOpen uid db with
    | none =>
      rw [endSession_no_open uid nowT db hm] at ht
      exact Or.inl ht
    | some s =>
      have hend : (LoginSession.endSession uid nowT db).2
          = db.map fun t0 : SessionRec =>
              if t0.id = s.id then { t0 with logoutTime := some nowT, isValid := false }
              else t0 := by
        unfold LoginSession.endSession
        rw [hm]
      rw [hend] at ht
      obtain ⟨t0, ht0, rfl⟩ := List.mem_map.mp ht
      by_cases hid : t0.id = s.id
      · exact Or.inr (by simp [hid])
      · exact Or.inl (by simp [hid, ht0])
  have hinvsnd : ∀ t ∈ (LoginSession.invalidateAllSessions uid nowT db).2,
      t ∈ db ∨ (t.isValid = false ∧ t.logoutTime = some nowT) := by
    intro t ht
    simp only [LoginSession.invalidateAllSessions] at ht
    obtain ⟨t0, ht0, rfl⟩ := List.mem_map.mp ht
    by_cases hc : t0.userId = uid ∧ t0.isValid = true
    · exact Or.inr (by simp [hc])
    · exact Or.inl (by simp [hc, ht0])
  refine ⟨?_, ?_, ?_, hendsnd, hinvsnd⟩
  · intro t ht
    simp only [LoginSession.create] at ht
    rcases List.mem_append.mp ht with h0 | h0
    · exact hinv t h0
    · have : t = freshSession newId uid nowT ip ua := by simpa [freshSession] using h0
      subst this
      simp [freshSession]
  · intro t ht
    cases hendsnd t ht with
    | inl h0 => exact hinv t h0
    | inr h0 => simp [h0.1, h0.2]
  · intro t ht
    cases hinvsnd t ht with
    | inl h0 => exact hinv t h0
    | inr h0 => simp [h0.1, h0.2]

/-- C10 witness: the invariant holds after ending the single open session of
user 5. -/
theorem session_validity_invariant_witness :
    SessionInv (LoginSession.endSession 5 40 [freshSession 21 5 35 none none]).2 :=
  (session_validity_invariant 5 40 21 none none [freshSession 21 5 35 none none]
    (by
      intro s hs
      rw [List.mem_singleton] at hs
      subst hs
      simp [freshSession])).2.1

/-- C8 amended-claim witness: the characterization applied to `09:30`. -/
theorem timeFormat_characterization_witness :
    timeFormatMatch "09:30".data = true ↔
      (zeroPaddedTimeForm "09:30".data = true
        ∨ singleDigitHourForm "09:30".data = true) :=
  timeFormat_characterization "09:30".data
